import Mathlib

set_option autoImplicit false

/-- Model of a JavaScript runtime value as it occurs in log records and in the
continuation-local context store of this repository: strings, booleans,
numbers, arrays of strings (formatted stack traces), the cached caller object
stored under the reserved key, and the reduced cause object built by
formatCause. -/
inductive JX where
  | str : String → JX
  | boolV : Bool → JX
  | numV : Int → JX
  | strArr : List String → JX
  | callerV : Option String → Option String → JX
  | redCause : String → String → Option (List String) → JX
  deriving DecidableEq, Repr

/-- JavaScript truthiness of a possibly-undefined value; none models undefined. -/
def jsTruthy : Option JX → Bool
  | none => false
  | some (JX.str s) => s ≠ ""
  | some (JX.boolV b) => b
  | some (JX.numV n) => n ≠ 0
  | some (JX.strArr _) => true
  | some (JX.callerV _ _) => true
  | some (JX.redCause _ _ _) => true

/-- A JavaScript object as an insertion-ordered association list. -/
abbrev JObj := List (String × JX)

/-- Property read on an object: the value at the first entry with the key. -/
def objGet (o : JObj) (k : String) : Option JX :=
  match o with
  | [] => none
  | p :: t => if p.1 = k then some p.2 else objGet t k

/-- Property assignment on an object: replace the value in place when the key
exists, append the entry otherwise. -/
def objSet (o : JObj) (k : String) (v : JX) : JObj :=
  match o with
  | [] => [(k, v)]
  | p :: t => if p.1 = k then (k, v) :: t else p :: objSet t k v

/-- The JavaScript delete operator on an object. -/
def objDelete (o : JObj) (k : String) : JObj :=
  o.filter (fun p => p.1 ≠ k)

/-- Object spread: all entries of the second object assigned over the first. -/
def objSpread (a b : JObj) : JObj :=
  b.foldl (fun acc p => objSet acc p.1 p.2) a

/-- INVALID_CONTEXT_VALUES from src/src/constants/log-constants.ts. -/
def INVALID_CONTEXT_VALUES : List String :=
  ["Array", "forEach", "Object", "OperatorSubscriber", "Subscriber"]

/-- INTERNAL_CLASSES from src/src/constants/log-constants.ts. -/
def INTERNAL_CLASSES : List String :=
  ["Array", "Object", "Function", "Promise", "Logger", "LoggerService",
   "NestLogger", "Console", "Module", "InstanceLoader", "NestFactory",
   "NestApplication", "NestApplicationContext", "Router", "RouterExplorer",
   "RoutesResolver", "Injector", "ModuleRef", "Reflector", "MetadataScanner",
   "DependenciesScanner", "ModuleCompiler", "NestContainer", "ContextIdFactory",
   "ContextId", "ModuleTokenFactory", "ModuleDefinition", "UnknownModule",
   "UndefinedModule", "DynamicModule", "StaticModule", "AsyncLocalStorage",
   "AsyncResource", "EventEmitter", "Stream", "Readable", "Writable",
   "Transform", "Duplex", "PassThrough", "OperatorSubscriber", "Subscriber",
   "Observable"]

/-- INTERNAL_METHODS from src/src/constants/log-constants.ts. -/
def INTERNAL_METHODS : List String :=
  ["forEach", "map", "filter", "reduce", "find", "some", "every", "call",
   "apply", "bind", "toString", "valueOf", "hasOwnProperty", "isPrototypeOf",
   "propertyIsEnumerable", "toLocaleString", "constructor", "__defineGetter__",
   "__defineSetter__", "__lookupGetter__", "__lookupSetter__", "__proto__",
   "next", "error", "complete", "subscribe", "pipe", "tap", "catchError"]

/-- SENSITIVE_KEYS from src/src/constants/log-constants.ts. -/
def SENSITIVE_KEYS : List String :=
  ["password", "token", "authorization", "secret", "apiKey", "apikey",
   "cookie", "session", "set-cookie"]

/-- DEFAULT_REDACT_PATHS from src/src/constants/log-constants.ts. -/
def DEFAULT_REDACT_PATHS : List String :=
  ["password", "token", "authorization", "secret", "apiKey", "apikey",
   "cookie", "session"]

/-- isValidContextValue from the log utilities: rejects the reserved key
context and string values contained in INVALID_CONTEXT_VALUES. -/
def isValidContextValue (value : JX) (key : String) : Bool :=
  if key = "context" then false
  else
    match value with
    | JX.str s => !(INVALID_CONTEXT_VALUES.contains s)
    | _ => true

/-- cleanLogData from the log utilities: keeps exactly the entries whose
value passes isValidContextValue for their key. -/
def cleanLogData (logData : JObj) : JObj :=
  logData.filter (fun p => isValidContextValue p.2 p.1)

/-- Result shape of the stack-inspection routine getCallerContext. -/
structure CallerRes where
  service : Option String
  method : Option String
  deriving DecidableEq, Repr

/-- JavaScript truthiness of an optional string property. -/
def strOptTruthy : Option String → Bool
  | none => false
  | some s => s ≠ ""

/-- The guard caller.service or caller.method used before caching. -/
def callerNonEmpty (c : CallerRes) : Bool :=
  strOptTruthy c.service || strOptTruthy c.method

/-- Reading service and method off a value retrieved from the store under
_cachedCaller; the logger only ever writes JX.callerV there, and property
access on any other runtime value yields undefined. -/
def decodeCaller : JX → CallerRes
  | JX.callerV s m => ⟨s, m⟩
  | _ => ⟨none, none⟩

/-- Observation of the optional distributed-trace collaborator: none when the
API is unavailable or no span is active, otherwise the traceId and spanId of
the active span context. -/
abbrev OtelSpan := Option (Option String × Option String)

/-- getOpenTelemetryContext of LoggerService: span identifiers are taken only
when the corresponding field is not already truthy in the existing context. -/
def getOpenTelemetryContext (existingContext : JObj) (otel : OtelSpan) : JObj :=
  match otel with
  | none => []
  | some (tid, sid) =>
    (if !(jsTruthy (objGet existingContext "traceId")) && strOptTruthy tid then
      [("traceId", JX.str (tid.getD ""))]
    else []) ++
    (if !(jsTruthy (objGet existingContext "spanId")) && strOptTruthy sid then
      [("spanId", JX.str (sid.getD ""))]
    else [])

/-- shouldIncludeServiceMethod of LoggerService: component strictly unequal to
the string http. -/
def shouldIncludeServiceMethod (context : JObj) : Bool :=
  match objGet context "component" with
  | some (JX.str s) => s != "http"
  | _ => true

/-- One invocation of getCallerContext, modelled as consuming the next entry
of an oracle holding the successive results of runtime stack inspection, plus
the caching write performed by getAutoContext when the result is non-empty.
Returns the caller, the updated store, the invocation count one, and the rest
of the oracle. -/
def freshCaller (store : JObj) (oracle : List CallerRes) :
    Option CallerRes × JObj × Nat × List CallerRes :=
  let c := oracle.headD ⟨none, none⟩
  let store2 :=
    if callerNonEmpty c then objSet store "_cachedCaller" (JX.callerV c.service c.method)
    else store
  (some c, store2, 1, oracle.tail)

/-- Caller resolution step of getAutoContext: reuse the cached caller when the
stored value is truthy, otherwise invoke getCallerContext via freshCaller. -/
def resolveCaller (store : JObj) (oracle : List CallerRes) :
    Option CallerRes × JObj × Nat × List CallerRes :=
  match objGet store "_cachedCaller" with
  | some v => if jsTruthy (some v) then (some (decodeCaller v), store, 0, oracle) else freshCaller store oracle
  | none => freshCaller store oracle

/-- Result of one getAutoContext call: the record it returns, the context
store after it ran, how many times getCallerContext was invoked, and the
remaining oracle. -/
structure AutoCtxResult where
  record : JObj
  store : JObj
  callerCalls : Nat
  oracleRest : List CallerRes
  deriving DecidableEq, Repr

/-- getAutoContext of LoggerService over the store of the current unit of
work: reads the full context, resolves the caller only when component is not
http and neither service nor method is truthy, merges the optional
distributed-trace fields, conditionally adds service and method, and cleans
the result. -/
def getAutoContext (store : JObj) (oracle : List CallerRes) (otel : OtelSpan) :
    AutoCtxResult :=
  let context := store
  let needCaller := shouldIncludeServiceMethod context
    && !(jsTruthy (objGet context "service")) && !(jsTruthy (objGet context "method"))
  let resolved :=
    if needCaller then resolveCaller store oracle else (none, store, 0, oracle)
  let caller := resolved.1
  let store2 := resolved.2.1
  let calls := resolved.2.2.1
  let rest := resolved.2.2.2
  let otelCtx := getOpenTelemetryContext context otel
  let auto0 := objSpread context otelCtx
  let callerService := caller.bind (fun c => c.service)
  let callerMethod := caller.bind (fun c => c.method)
  let auto1 :=
    if strOptTruthy callerService && !(jsTruthy (objGet context "service"))
        && shouldIncludeServiceMethod context
        && !(INTERNAL_CLASSES.contains (callerService.getD "")) then
      objSet auto0 "service" (JX.str (callerService.getD ""))
    else auto0
  let auto2 :=
    if strOptTruthy callerMethod && !(jsTruthy (objGet context "method"))
        && shouldIncludeServiceMethod context
        && !(INTERNAL_METHODS.contains (callerMethod.getD "")) then
      objSet auto1 "method" (JX.str (callerMethod.getD ""))
    else auto1
  { record := cleanLogData auto2, store := store2, callerCalls := calls, oracleRest := rest }

/-- Two successive log calls inside one unit of work: the second call sees the
store and the runtime stack oracle left by the first. -/
def twoAutoContexts (store : JObj) (oracle : List CallerRes) (otel : OtelSpan) :
    AutoCtxResult × AutoCtxResult :=
  let r1 := getAutoContext store oracle otel
  let r2 := getAutoContext r1.store r1.oracleRest otel
  (r1, r2)

/-- The structured-data object handed to the engine by LoggerService.warn:
cleaned auto context, then metadata entries merged in order under
isValidContextValue only. A none metadata models a call without a metadata
object. -/
def warnLogData (autoContext : JObj) (meta : Option JObj) : JObj :=
  let logData := cleanLogData autoContext
  match meta with
  | none => logData
  | some m =>
    m.foldl (fun d p => if isValidContextValue p.2 p.1 then objSet d p.1 p.2 else d) logData

/-- The structured-data object handed to the engine by LoggerService.info:
cleaned auto context, deletion of service and method when component is http,
metadata merged in order with the validity filter and the http guard on the
keys service and method, then a final cleanLogData. -/
def infoLogData (autoContext : JObj) (meta : Option JObj) : JObj :=
  let d0 := cleanLogData autoContext
  let d1 :=
    if !(shouldIncludeServiceMethod d0) then objDelete (objDelete d0 "service") "method"
    else d0
  let d2 :=
    match meta with
    | none => d1
    | some m =>
      m.foldl (fun d p =>
        if isValidContextValue p.2 p.1
            && (shouldIncludeServiceMethod d || (p.1 != "service" && p.1 != "method")) then
          objSet d p.1 p.2
        else d) d1
  cleanLogData d2

/-- Split of a character list at every occurrence of the separator, keeping
empty pieces, as the JavaScript split of a string on a one-character
separator does. -/
def splitOnChar (sep : Char) : List Char → List (List Char)
  | [] => [[]]
  | c :: t =>
    match splitOnChar sep t with
    | [] => [[c]]
    | h :: r => if c == sep then [] :: h :: r else (c :: h) :: r

/-- JavaScript trim on a character list: leading and trailing whitespace
removed. -/
def trimChars (l : List Char) : List Char :=
  ((l.dropWhile Char.isWhitespace).reverse.dropWhile Char.isWhitespace).reverse

/-- formatStackTrace from the log utilities: split on newline, trim each
line, drop the empty ones, keeping the order. -/
def formatStackTrace (stack : String) : List String :=
  ((splitOnChar (Char.ofNat 10) stack.toList).map (fun l => String.mk (trimChars l))).filter
    (fun l => l != "")

/-- A JavaScript value in cause position: either a genuine Error instance
with name, message and optional stack, or any other runtime value. -/
inductive CauseV where
  | errC : String → String → Option String → CauseV
  | rawC : JX → CauseV
  deriving DecidableEq, Repr

/-- formatCause from the log utilities: an Error cause is reduced to an
object of name, message and, when the stack is truthy, the formatted stack;
any other cause is returned unchanged. -/
def formatCause : CauseV → JX
  | CauseV.errC name msg stack =>
    JX.redCause name msg
      (match stack with
        | some s => if s ≠ "" then some (formatStackTrace s) else none
        | none => none)
  | CauseV.rawC v => v

/-- The structured-data object built by LoggerService.error when the message
argument is an Error: the merged error context spread first, then errorName,
then the formatted stack when the stack is truthy, then the formatted cause
when a cause is present. -/
def errorLogMeta (errorContext : JObj) (name : String) (stack : Option String)
    (cause : Option CauseV) : JObj :=
  let base := objSet errorContext "errorName" (JX.str name)
  let base2 :=
    match stack with
    | some s => if s ≠ "" then objSet base "stack" (JX.strArr (formatStackTrace s)) else base
    | none => base
  match cause with
  | some c => objSet base2 "cause" (formatCause c)
  | none => base2

/-- The structured-data object built by LoggerService.fatal when the message
argument is an Error, mirroring the fatal branch of the source. -/
def fatalLogMeta (logData : JObj) (name : String) (stack : Option String)
    (cause : Option CauseV) : JObj :=
  let base := objSet logData "errorName" (JX.str name)
  let base2 :=
    match stack with
    | some s => if s ≠ "" then objSet base "stack" (JX.strArr (formatStackTrace s)) else base
    | none => base
  match cause with
  | some c => objSet base2 "cause" (formatCause c)
  | none => base2

/-- Character-list test that the first list starts with the second. -/
def listStartsWith : List Char → List Char → Bool
  | _, [] => true
  | [], _ :: _ => false
  | a :: as, b :: bs => a == b && listStartsWith as bs

/-- formatMessage of LoggerService on a textual message, with the resolved
context label: the label is wrapped in square brackets and prefixed with a
separating blank unless the message already starts with the bracketed label;
a missing or empty label leaves the message unchanged. Messages and labels
are modelled as character lists. -/
def formatMessage (message : List Char) (logContext : Option (List Char)) : List Char :=
  match logContext with
  | none => message
  | some c =>
    if c ≠ [] then
      let contextPrefix := '[' :: (c ++ [']'])
      if listStartsWith message contextPrefix then message
      else contextPrefix ++ (' ' :: message)
    else message

/-- Character-list test that the second list occurs inside the first. -/
def listIncludes : List Char → List Char → Bool
  | [], n => n.isEmpty
  | c :: t, n => listStartsWith (c :: t) n || listIncludes t n

/-- JavaScript toLowerCase, character by character. -/
def strToLower (s : String) : String :=
  String.mk (s.toList.map Char.toLower)

/-- The sensitive-key test of sanitizeObject: the lowered key contains the
lowered sensitive word. -/
def matchesSensitive (key : String) (sensitiveKeys : List String) : Bool :=
  sensitiveKeys.any (fun s => listIncludes (strToLower key).toList (strToLower s).toList)

/-- sanitizeObject from the log utilities: every entry whose key matches a
sensitive word is overwritten in place with the marker string. -/
def sanitizeObject (obj : JObj) (sensitiveKeys : List String) : JObj :=
  obj.map (fun p =>
    if matchesSensitive p.1 sensitiveKeys then (p.1, JX.str "[REDACTED]") else p)

/-- The redact configuration a LoggerService hands to the logging engine. -/
structure RedactCfg where
  paths : List String
  remove : Bool
  deriving DecidableEq, Repr

/-- The redact option built inside createLogger: the configured list or
DEFAULT_REDACT_PATHS, always with remove set to true. -/
def createLoggerRedact (redactOption : Option (List String)) : RedactCfg :=
  { paths := redactOption.getD DEFAULT_REDACT_PATHS, remove := true }

/-- Modelled from the spec: the external logging engine applies the configured
redact paths to every emitted record at every severity; with remove false a
matched field is replaced in place by the fixed engine marker, with remove
true the matched field is dropped from the record, following the documented
redact contract of the engine named in the source. -/
def engineRedact (cfg : RedactCfg) (record : JObj) : JObj :=
  if cfg.remove then record.filter (fun p => !(cfg.paths.contains p.1))
  else record.map (fun p =>
    if cfg.paths.contains p.1 then (p.1, JX.str "[Redacted]") else p)

/-- An inbound header value: a single string or a repeated header. -/
inductive HV where
  | s : String → HV
  | a : List String → HV
  deriving DecidableEq, Repr

/-- Header lookup by exact name. -/
def hGet (headers : List (String × HV)) (k : String) : Option HV :=
  match headers with
  | [] => none
  | p :: t => if p.1 = k then some p.2 else hGet t k

/-- JavaScript truthiness of a possibly-missing header value; an array is
always truthy, a string is truthy when non-empty. -/
def hvTruthy : Option HV → Bool
  | none => false
  | some (HV.s st) => st ≠ ""
  | some (HV.a _) => true

/-- The JavaScript or-else on header values: the first operand when truthy,
the second otherwise. -/
def hOr (x y : Option HV) : Option HV :=
  if hvTruthy x then x else y

/-- The Array.isArray conditional of the fallback branch: the first element
for a repeated header, the string itself otherwise. -/
def hvFirst : Option HV → Option String
  | none => none
  | some (HV.s st) => some st
  | some (HV.a l) => l.head?

/-- Result of extractTraceContext. -/
structure TraceCtx where
  traceId : Option String
  spanId : Option String
  parentSpanId : Option String
  traceFlags : Option String
  deriving DecidableEq, Repr

/-- extractTraceContext from logger.context: prefer a truthy single-valued
traceparent header, reading parts one, two and three of its hyphen-split form
when it has at least four parts; otherwise fall back to the discrete headers,
with tracestate feeding traceFlags. -/
def extractTraceContext (headers : List (String × HV)) : TraceCtx :=
  let traceparent := hOr (hGet headers "traceparent") (hGet headers "x-traceparent")
  let tracestate := hOr (hGet headers "tracestate") (hGet headers "x-tracestate")
  let fallback : TraceCtx :=
    { traceId := hvFirst (hOr (hGet headers "x-trace-id") (hGet headers "x-traceid"))
      spanId := hvFirst (hOr (hGet headers "x-span-id") (hGet headers "x-spanid"))
      parentSpanId :=
        hvFirst (hOr (hGet headers "x-parent-span-id") (hGet headers "x-parent-spanid"))
      traceFlags := hvFirst tracestate }
  match traceparent with
  | some (HV.s tp) =>
    if tp = "" then fallback
    else
      let parts := (splitOnChar (Char.ofNat 45) tp.toList).map String.mk
      if parts.length ≥ 4 then
        { traceId := parts[1]?, spanId := none,
          parentSpanId := parts[2]?, traceFlags := parts[3]? }
      else
        { traceId := none, spanId := none, parentSpanId := none, traceFlags := none }
  | _ => fallback

/-- The raw continuation-local store: a stored value of none models a key
explicitly bound to undefined. -/
abbrev ClsStore := List (String × Option JX)

/-- The set operation of the underlying continuation-local store. -/
def clsSet (s : ClsStore) (k : String) (v : Option JX) : ClsStore :=
  match s with
  | [] => [(k, v)]
  | p :: t => if p.1 = k then (k, v) :: t else p :: clsSet t k v

/-- LoggerContextService.set: write through to the store only when the value
is not undefined. -/
def LoggerContextService.set (s : ClsStore) (k : String) (v : Option JX) : ClsStore :=
  match v with
  | none => s
  | some _ => clsSet s k v

/-- LoggerContextService.run, restricted to its store effect: seed every
entry of the supplied context whose value is not undefined, in order, then
run the callback. -/
def LoggerContextService.run (s : ClsStore) (context : List (String × Option JX)) : ClsStore :=
  context.foldl
    (fun acc p =>
      match p.2 with
      | none => acc
      | some _ => clsSet acc p.1 p.2) s

/-- Whether some key of the store is bound to undefined. -/
def hasUndef (s : ClsStore) : Bool :=
  s.any (fun p => p.2.isNone)

/-- Transport kind of the current unit of work, as returned by host.getType. -/
inductive Transport where
  | http
  | rpc
  | ws
  deriving DecidableEq, Repr

/-- A caught JavaScript value as the exception filter inspects it: the shape
facts probed by isBaseError, and the data the two branches read off it. For a
value that is not an Error instance, message models the text of the wrapping
Error built from its string form. -/
structure Caught where
  isErrorInstance : Bool
  hasCode : Bool
  hasLoggable : Bool
  hasSetTransportIfUnset : Bool
  codeIsString : Bool
  loggableIsBool : Bool
  code : String
  name : String
  message : String
  loggable : Bool
  transport : Option Transport
  statusCode : Option Nat
  clientSafeError : JObj
  rpcError : JObj
  deriving DecidableEq, Repr

/-- isBaseError from the log utilities: an Error instance with the three
member keys, a string code and a boolean loggable flag. -/
def isBaseError (e : Caught) : Bool :=
  e.isErrorInstance && e.hasCode && e.hasLoggable && e.hasSetTransportIfUnset
    && e.codeIsString && e.loggableIsBool

/-- setTransportIfUnset of the domain error: tag the error with the transport
of the current unit of work only when no transport is set yet. -/
def setTransportIfUnset (e : Caught) (t : Transport) : Caught :=
  match e.transport with
  | none => { e with transport := some t }
  | some _ => e

/-- The client response produced by the exception filter: a JSON body with
status and response headers for http, or a re-raised transport-native wrapped
error carrying a payload for rpc and ws. -/
inductive FilterResponse where
  | httpJson : List (String × String) → Nat → JObj → FilterResponse
  | rpcRaise : JObj → FilterResponse
  | wsRaise : JObj → FilterResponse
  deriving DecidableEq, Repr

/-- The x-request-id response header written by the http handlers when the
stored requestId is a truthy string. -/
def requestIdHeader (clsRequestId : Option JX) : List (String × String) :=
  match clsRequestId with
  | some (JX.str r) => if r ≠ "" then [("x-request-id", r)] else []
  | _ => []

/-- BaseErrorExceptionFilter.catch: classify the caught value with
isBaseError; in the domain branch tag the transport, emit one error record
only when loggable is true, and shape the response per transport from the
client-safe or rpc payload with the default internal-server-error status; in
the generic branch always emit one error record and produce the generic
internal-server-error response. Returns the number of calls into the logging
engine and the response. The now argument is the ISO timestamp of the catch,
path the request url. -/
def filterCatch (v : Caught) (t : Transport) (clsRequestId : Option JX)
    (now path : String) : Nat × FilterResponse :=
  if isBaseError v then
    let e := setTransportIfUnset v t
    let logs := if e.loggable then 1 else 0
    let response :=
      match t with
      | Transport.http =>
        let status := match e.statusCode with
          | some n => if n ≠ 0 then n else 500
          | none => 500
        FilterResponse.httpJson (requestIdHeader clsRequestId) status
          (objSpread e.clientSafeError
            [("timestamp", JX.str now), ("path", JX.str path)])
      | Transport.rpc => FilterResponse.rpcRaise e.rpcError
      | Transport.ws => FilterResponse.wsRaise e.rpcError
    (logs, response)
  else
    let msg := if v.message ≠ "" then v.message else "An error occurred"
    let response :=
      match t with
      | Transport.http =>
        FilterResponse.httpJson (requestIdHeader clsRequestId) 500
          [("code", JX.str "INTERNAL_SERVER_ERROR"), ("message", JX.str msg),
           ("timestamp", JX.str now), ("path", JX.str path)]
      | Transport.rpc =>
        FilterResponse.rpcRaise
          [("code", JX.str "INTERNAL_SERVER_ERROR"), ("message", JX.str msg)]
      | Transport.ws =>
        FilterResponse.wsRaise
          [("code", JX.str "INTERNAL_SERVER_ERROR"), ("message", JX.str msg)]
    (1, response)

theorem objGet_objSet_self (o : JObj) (k : String) (v : JX) :
    objGet (objSet o k v) k = some v := by
  induction o with
  | nil => simp [objSet, objGet]
  | cons p t ih =>
    by_cases hp : p.1 = k
    · simp [objSet, objGet, hp]
    · simp [objSet, objGet, hp, ih]

theorem objGet_objSet_ne (o : JObj) (k k2 : String) (v : JX) (h : k2 ≠ k) :
    objGet (objSet o k v) k2 = objGet o k2 := by
  have hk : ¬(k = k2) := fun hh => h hh.symm
  induction o with
  | nil => simp [objSet, objGet, hk]
  | cons p t ih =>
    by_cases hp : p.1 = k
    · have hpk2 : ¬(p.1 = k2) := by rw [hp]; exact hk
      simp [objSet, objGet, hp, hk, hpk2]
    · by_cases hpk2 : p.1 = k2
      · simp [objSet, objGet, hp, hpk2, h]
      · simp [objSet, objGet, hp, hpk2, ih]

theorem objGet_objDelete_self (o : JObj) (k : String) :
    objGet (objDelete o k) k = none := by
  induction o with
  | nil => simp [objDelete, objGet]
  | cons p t ih =>
    by_cases hp : p.1 = k
    · simpa [objDelete, List.filter_cons, hp] using ih
    · simpa [objDelete, List.filter_cons, objGet, hp] using ih

theorem objGet_objDelete_ne (o : JObj) (k k2 : String) (h : k2 ≠ k) :
    objGet (objDelete o k) k2 = objGet o k2 := by
  induction o with
  | nil => simp [objDelete, objGet]
  | cons p t ih =>
    by_cases hp : p.1 = k
    · have hk : ¬(k = k2) := fun hh => h hh.symm
      have hpk2 : ¬(p.1 = k2) := by rw [hp]; exact hk
      simpa [objDelete, List.filter_cons, objGet, hp, hpk2, hk] using ih
    · by_cases hpk2 : p.1 = k2
      · simp [objDelete, List.filter_cons, objGet, hp, hpk2, h]
      · simpa [objDelete, List.filter_cons, objGet, hp, hpk2] using ih

theorem objGet_none_not_mem (o : JObj) (k : String) (hn : objGet o k = none) :
    ∀ v : JX, (k, v) ∉ o := by
  induction o with
  | nil => simp
  | cons p t ih =>
    intro v hv
    by_cases hp : p.1 = k
    · simp [objGet, hp] at hn
    · rcases List.mem_cons.mp hv with h1 | h1
      · exact hp (by rw [← h1])
      · exact ih (by simpa [objGet, hp] using hn) v h1

theorem cleanLogData_get_none (o : JObj) (k : String) (hn : objGet o k = none) :
    objGet (cleanLogData o) k = none := by
  induction o with
  | nil => simp [cleanLogData, objGet]
  | cons p t ih =>
    by_cases hp : p.1 = k
    · simp [objGet, hp] at hn
    · have ht := ih (by simpa [objGet, hp] using hn)
      by_cases hv : isValidContextValue p.2 p.1
      · simpa [cleanLogData, List.filter_cons, objGet, hv, hp] using ht
      · simpa [cleanLogData, List.filter_cons, hv] using ht

theorem cleanLogData_get_valid (o : JObj) (k : String) (v : JX)
    (hg : objGet o k = some v) (hv : isValidContextValue v k = true) :
    objGet (cleanLogData o) k = some v := by
  induction o with
  | nil => simp [objGet] at hg
  | cons p t ih =>
    by_cases hp : p.1 = k
    · have hpv : p.2 = v := by
        have := hg
        simp [objGet, hp] at this
        exact this
      have hval : isValidContextValue p.2 p.1 = true := by rw [hp, hpv]; exact hv
      simp [cleanLogData, List.filter_cons, objGet, hval, hp, hpv, hv]
    · have ht := ih (by simpa [objGet, hp] using hg)
      by_cases hval : isValidContextValue p.2 p.1
      · simpa [cleanLogData, List.filter_cons, objGet, hval, hp] using ht
      · simpa [cleanLogData, List.filter_cons, hval] using ht

theorem clean_objSet_fresh (o : JObj) (k : String) (v : JX)
    (h : objGet o k = none) :
    objGet (cleanLogData (objSet o k v)) k
      = if isValidContextValue v k then some v else none := by
  induction o with
  | nil =>
    by_cases hv : isValidContextValue v k
    · simp [objSet, cleanLogData, List.filter_cons, objGet, hv]
    · simp [objSet, cleanLogData, List.filter_cons, objGet, hv]
  | cons p t ih =>
    by_cases hp : p.1 = k
    · simp [objGet, hp] at h
    · have ht := ih (by simpa [objGet, hp] using h)
      by_cases hval : isValidContextValue p.2 p.1
      · simpa [objSet, cleanLogData, List.filter_cons, objGet, hp, hval] using ht
      · simpa [objSet, cleanLogData, List.filter_cons, hp, hval] using ht

theorem clean_objSet_ne (o : JObj) (k k2 : String) (v : JX) (h : k2 ≠ k) :
    objGet (cleanLogData (objSet o k v)) k2 = objGet (cleanLogData o) k2 := by
  have hk : ¬(k = k2) := fun hh => h hh.symm
  induction o with
  | nil =>
    by_cases hv : isValidContextValue v k
    · simp [objSet, cleanLogData, List.filter_cons, objGet, hv, hk]
    · simp [objSet, cleanLogData, List.filter_cons, objGet, hv]
  | cons p t ih =>
    by_cases hp : p.1 = k
    · have hpk2 : ¬(p.1 = k2) := by rw [hp]; exact hk
      by_cases hvv : isValidContextValue v k
      · by_cases hpv : isValidContextValue p.2 p.1
        · have hpv2 : isValidContextValue p.2 k = true := by rw [← hp]; exact hpv
          simp [objSet, cleanLogData, List.filter_cons, objGet, hp, hvv, hpv, hpv2, hk, hpk2, h]
        · have hpv2 : ¬(isValidContextValue p.2 k = true) := by rw [← hp]; exact hpv
          simp [objSet, cleanLogData, List.filter_cons, objGet, hp, hvv, hpv, hpv2, hk, hpk2, h]
      · by_cases hpv : isValidContextValue p.2 p.1
        · have hpv2 : isValidContextValue p.2 k = true := by rw [← hp]; exact hpv
          simp [objSet, cleanLogData, List.filter_cons, objGet, hp, hvv, hpv, hpv2, hk, hpk2, h]
        · have hpv2 : ¬(isValidContextValue p.2 k = true) := by rw [← hp]; exact hpv
          simp [objSet, cleanLogData, List.filter_cons, objGet, hp, hvv, hpv, hpv2]
    · by_cases hpv : isValidContextValue p.2 p.1
      · by_cases hpk2 : p.1 = k2
        · have hpv2 : isValidContextValue p.2 k2 = true := by rw [← hpk2]; exact hpv
          simp [objSet, cleanLogData, List.filter_cons, objGet, hp, hpv, hpv2, hpk2, h]
        · simpa [objSet, cleanLogData, List.filter_cons, objGet, hp, hpv, hpk2] using ih
      · simpa [objSet, cleanLogData, List.filter_cons, hp, hpv] using ih

theorem objSpread_get_notin (b : JObj) (a : JObj) (k : String)
    (hb : ∀ v : JX, (k, v) ∉ b) :
    objGet (objSpread a b) k = objGet a k := by
  induction b generalizing a with
  | nil => rfl
  | cons p t ih =>
    have hpk : p.1 ≠ k := by
      intro hh
      apply hb p.2
      have hpe : (k, p.2) = p := by
        rw [← hh]
      rw [hpe]
      exact List.mem_cons_self p t
    have hstep : objSpread a (p :: t) = objSpread (objSet a p.1 p.2) t := rfl
    rw [hstep, ih (objSet a p.1 p.2) (fun v hv => hb v (List.mem_cons_of_mem _ hv))]
    exact objGet_objSet_ne a p.1 k p.2 (Ne.symm hpk)

theorem objSpread_otel_get (a ctx : JObj) (otel : OtelSpan) (k : String)
    (h1 : k ≠ "traceId") (h2 : k ≠ "spanId") :
    objGet (objSpread a (getOpenTelemetryContext ctx otel)) k = objGet a k := by
  apply objSpread_get_notin
  intro v hv
  cases otel with
  | none => simp [getOpenTelemetryContext] at hv
  | some pr =>
    cases pr with
    | mk tid sid =>
      simp only [getOpenTelemetryContext] at hv
      rcases List.mem_append.mp hv with hh | hh
      · split at hh
        · simp at hh
          exact h1 hh.1
        · simp at hh
      · split at hh
        · simp at hh
          exact h2 hh.1
        · simp at hh

theorem shouldInclude_ext (a b : JObj)
    (h : objGet a "component" = objGet b "component") :
    shouldIncludeServiceMethod a = shouldIncludeServiceMethod b := by
  unfold shouldIncludeServiceMethod
  rw [h]

theorem getOtel_ext (a b : JObj) (otel : OtelSpan)
    (h1 : objGet a "traceId" = objGet b "traceId")
    (h2 : objGet a "spanId" = objGet b "spanId") :
    getOpenTelemetryContext a otel = getOpenTelemetryContext b otel := by
  cases otel with
  | none => rfl
  | some pr =>
    cases pr with
    | mk tid sid => simp [getOpenTelemetryContext, h1, h2]

theorem clean_addSM_get_service (A : JObj) (sv mv : JX) (condS condM : Bool)
    (hA : objGet A "service" = none) :
    objGet (cleanLogData
      (if condM then
        objSet (if condS then objSet A "service" sv else A) "method" mv
      else (if condS then objSet A "service" sv else A))) "service"
    = if condS then (if isValidContextValue sv "service" then some sv else none)
      else none := by
  cases condM <;> cases condS <;>
    simp only [Bool.false_eq_true, ite_true, ite_false, reduceIte]
  · exact cleanLogData_get_none A "service" hA
  · exact clean_objSet_fresh A "service" sv hA
  · rw [clean_objSet_ne A "method" "service" mv (by decide)]
    exact cleanLogData_get_none A "service" hA
  · rw [clean_objSet_ne (objSet A "service" sv) "method" "service" mv (by decide)]
    exact clean_objSet_fresh A "service" sv hA

theorem clean_addSM_get_method (A : JObj) (sv mv : JX) (condS condM : Bool)
    (hAm : objGet A "method" = none) :
    objGet (cleanLogData
      (if condM then
        objSet (if condS then objSet A "service" sv else A) "method" mv
      else (if condS then objSet A "service" sv else A))) "method"
    = if condM then (if isValidContextValue mv "method" then some mv else none)
      else none := by
  have hX : ∀ cs : Bool,
      objGet (if cs then objSet A "service" sv else A) "method" = none := by
    intro cs
    cases cs
    · simpa using hAm
    · simpa [objGet_objSet_ne A "service" "method" sv (by decide)] using hAm
  cases condM <;> cases condS <;>
    simp only [if_true, if_false, Bool.false_eq_true, ite_true, ite_false, reduceIte]
  · exact cleanLogData_get_none A "method" hAm
  · rw [clean_objSet_ne A "service" "method" sv (by decide)]
    exact cleanLogData_get_none A "method" hAm
  · exact clean_objSet_fresh A "method" mv (by simpa using hX false)
  · exact clean_objSet_fresh (objSet A "service" sv) "method" mv (by simpa using hX true)

/-- C3 (amended): within one unit of work, when the first caller resolution
returns a non-empty result, two log calls that both require caller resolution
invoke getCallerContext exactly once in total, and their records carry
identical service and method values, the second call reusing the value cached
under the reserved key. -/
theorem caller_cache_service_method (store : JObj) (c : CallerRes)
    (rest : List CallerRes) (otel : OtelSpan)
    (hnc : objGet store "_cachedCaller" = none)
    (hcomp : shouldIncludeServiceMethod store = true)
    (hs : objGet store "service" = none)
    (hm : objGet store "method" = none)
    (hne : callerNonEmpty c = true) :
    (twoAutoContexts store (c :: rest) otel).1.callerCalls
        + (twoAutoContexts store (c :: rest) otel).2.callerCalls = 1 ∧
    objGet (twoAutoContexts store (c :: rest) otel).1.record "service"
        = objGet (twoAutoContexts store (c :: rest) otel).2.record "service" ∧
    objGet (twoAutoContexts store (c :: rest) otel).1.record "method"
        = objGet (twoAutoContexts store (c :: rest) otel).2.record "method" := by
  obtain ⟨cs, cm⟩ := c
  have hcomp2 : shouldIncludeServiceMethod
      (objSet store "_cachedCaller" (JX.callerV cs cm)) = true := by
    rw [shouldInclude_ext _ store
      (objGet_objSet_ne store "_cachedCaller" "component" _ (by decide))]
    exact hcomp
  have hs2 : objGet (objSet store "_cachedCaller" (JX.callerV cs cm)) "service" = none := by
    rw [objGet_objSet_ne store "_cachedCaller" "service" _ (by decide)]
    exact hs
  have hm2 : objGet (objSet store "_cachedCaller" (JX.callerV cs cm)) "method" = none := by
    rw [objGet_objSet_ne store "_cachedCaller" "method" _ (by decide)]
    exact hm
  have hc2 : objGet (objSet store "_cachedCaller" (JX.callerV cs cm)) "_cachedCaller"
      = some (JX.callerV cs cm) := objGet_objSet_self store "_cachedCaller" _
  have hotel : getOpenTelemetryContext (objSet store "_cachedCaller" (JX.callerV cs cm)) otel
      = getOpenTelemetryContext store otel :=
    getOtel_ext _ store otel
      (objGet_objSet_ne store "_cachedCaller" "traceId" _ (by decide))
      (objGet_objSet_ne store "_cachedCaller" "spanId" _ (by decide))
  have hA1s : objGet (objSpread store (getOpenTelemetryContext store otel)) "service" = none := by
    rw [objSpread_otel_get store store otel "service" (by decide) (by decide)]
    exact hs
  have hA1m : objGet (objSpread store (getOpenTelemetryContext store otel)) "method" = none := by
    rw [objSpread_otel_get store store otel "method" (by decide) (by decide)]
    exact hm
  have hA2s : objGet (objSpread (objSet store "_cachedCaller" (JX.callerV cs cm))
      (getOpenTelemetryContext store otel)) "service" = none := by
    rw [objSpread_otel_get _ store otel "service" (by decide) (by decide)]
    exact hs2
  have hA2m : objGet (objSpread (objSet store "_cachedCaller" (JX.callerV cs cm))
      (getOpenTelemetryContext store otel)) "method" = none := by
    rw [objSpread_otel_get _ store otel "method" (by decide) (by decide)]
    exact hm2
  refine ⟨?_, ?_, ?_⟩
  · simp only [twoAutoContexts, getAutoContext, resolveCaller, freshCaller, hnc, hcomp, hs, hm,
      hne, jsTruthy, List.headD, List.tail, Bool.not_false, Bool.true_and, Bool.and_true,
      reduceIte, hc2, hcomp2, hs2, hm2, hotel, decodeCaller]
  · have h1 : objGet (twoAutoContexts store (⟨cs, cm⟩ :: rest) otel).1.record "service"
        = (if (strOptTruthy cs && !INTERNAL_CLASSES.contains (cs.getD "")) then
            (if isValidContextValue (JX.str (cs.getD "")) "service" then
              some (JX.str (cs.getD "")) else none)
          else none) := by
      simp only [twoAutoContexts, getAutoContext, resolveCaller, freshCaller, hnc, hcomp, hs, hm,
        hne, jsTruthy, List.headD, List.tail, Bool.not_false, Bool.true_and, Bool.and_true,
        reduceIte, Option.bind]
      exact clean_addSM_get_service _ _ _ _ _ hA1s
    have h2 : objGet (twoAutoContexts store (⟨cs, cm⟩ :: rest) otel).2.record "service"
        = (if (strOptTruthy cs && !INTERNAL_CLASSES.contains (cs.getD "")) then
            (if isValidContextValue (JX.str (cs.getD "")) "service" then
              some (JX.str (cs.getD "")) else none)
          else none) := by
      simp only [twoAutoContexts, getAutoContext, resolveCaller, freshCaller, hnc, hcomp, hs, hm,
        hne, jsTruthy, List.headD, List.tail, Bool.not_false, Bool.true_and, Bool.and_true,
        reduceIte, Option.bind, hc2, hcomp2, hs2, hm2, hotel, decodeCaller]
      exact clean_addSM_get_service _ _ _ _ _ hA2s
    exact h1.trans h2.symm
  · have h1 : objGet (twoAutoContexts store (⟨cs, cm⟩ :: rest) otel).1.record "method"
        = (if (strOptTruthy cm && !INTERNAL_METHODS.contains (cm.getD "")) then
            (if isValidContextValue (JX.str (cm.getD "")) "method" then
              some (JX.str (cm.getD "")) else none)
          else none) := by
      simp only [twoAutoContexts, getAutoContext, resolveCaller, freshCaller, hnc, hcomp, hs, hm,
        hne, jsTruthy, List.headD, List.tail, Bool.not_false, Bool.true_and, Bool.and_true,
        reduceIte, Option.bind]
      exact clean_addSM_get_method _ _ _ _ _ hA1m
    have h2 : objGet (twoAutoContexts store (⟨cs, cm⟩ :: rest) otel).2.record "method"
        = (if (strOptTruthy cm && !INTERNAL_METHODS.contains (cm.getD "")) then
            (if isValidContextValue (JX.str (cm.getD "")) "method" then
              some (JX.str (cm.getD "")) else none)
          else none) := by
      simp only [twoAutoContexts, getAutoContext, resolveCaller, freshCaller, hnc, hcomp, hs, hm,
        hne, jsTruthy, List.headD, List.tail, Bool.not_false, Bool.true_and, Bool.and_true,
        reduceIte, Option.bind, hc2, hcomp2, hs2, hm2, hotel, decodeCaller]
      exact clean_addSM_get_method _ _ _ _ _ hA2m
    exact h1.trans h2.symm

theorem infoFold_http (m : List (String × JX)) : ∀ d : JObj,
    objGet d "component" = some (JX.str "http") →
    objGet d "service" = none →
    objGet d "method" = none →
    (∀ v : JX, ("component", v) ∉ m) →
    objGet (m.foldl (fun d p =>
        if isValidContextValue p.2 p.1
            && (shouldIncludeServiceMethod d || (p.1 != "service" && p.1 != "method")) then
          objSet d p.1 p.2
        else d) d) "component" = some (JX.str "http") ∧
    objGet (m.foldl (fun d p =>
        if isValidContextValue p.2 p.1
            && (shouldIncludeServiceMethod d || (p.1 != "service" && p.1 != "method")) then
          objSet d p.1 p.2
        else d) d) "service" = none ∧
    objGet (m.foldl (fun d p =>
        if isValidContextValue p.2 p.1
            && (shouldIncludeServiceMethod d || (p.1 != "service" && p.1 != "method")) then
          objSet d p.1 p.2
        else d) d) "method" = none := by
  induction m with
  | nil =>
    intro d h1 h2 h3 _
    exact ⟨h1, h2, h3⟩
  | cons p t ih =>
    intro d h1 h2 h3 hnm
    have hpc : p.1 ≠ "component" := by
      intro hh
      apply hnm p.2
      have hpe : ("component", p.2) = p := by rw [← hh]
      rw [hpe]
      exact List.mem_cons_self p t
    have hsi : shouldIncludeServiceMethod d = false := by
      unfold shouldIncludeServiceMethod
      rw [h1]
      rfl
    have hnt : ∀ v : JX, ("component", v) ∉ t :=
      fun v hv => hnm v (List.mem_cons_of_mem _ hv)
    simp only [List.foldl_cons]
    by_cases hc : (isValidContextValue p.2 p.1
        && (shouldIncludeServiceMethod d || (p.1 != "service" && p.1 != "method"))) = true
    · rw [if_pos hc]
      rw [hsi] at hc
      simp only [Bool.false_or, Bool.and_eq_true, bne_iff_ne] at hc
      apply ih
      · rw [objGet_objSet_ne d p.1 "component" p.2 (Ne.symm hpc)]
        exact h1
      · rw [objGet_objSet_ne d p.1 "service" p.2 (Ne.symm hc.2.1)]
        exact h2
      · rw [objGet_objSet_ne d p.1 "method" p.2 (Ne.symm hc.2.2)]
        exact h3
      · exact hnt
    · rw [if_neg hc]
      exact ih d h1 h2 h3 hnt

/-- C2 (amended): for info, while the context component equals http and the
caller-supplied metadata carries no component key, the record handed to the
logging engine contains neither a service nor a method field, even when the
metadata includes those keys; warn performs no such removal. -/
theorem info_http_no_service_method (store : JObj) (oracle : List CallerRes)
    (otel : OtelSpan) (meta : JObj)
    (hcomp : objGet store "component" = some (JX.str "http"))
    (hmeta : ∀ v : JX, ("component", v) ∉ meta) :
    objGet (infoLogData (getAutoContext store oracle otel).record (some meta)) "service" = none ∧
    objGet (infoLogData (getAutoContext store oracle otel).record (some meta)) "method" = none := by
  have hsi : shouldIncludeServiceMethod store = false := by
    unfold shouldIncludeServiceMethod
    rw [hcomp]
    rfl
  have hrec : (getAutoContext store oracle otel).record
      = cleanLogData (objSpread store (getOpenTelemetryContext store otel)) := by
    simp only [getAutoContext, hsi, Bool.false_and, reduceIte, Option.bind, strOptTruthy,
      Bool.false_eq_true, Bool.and_self, Bool.false_or]
  have hrc : objGet (getAutoContext store oracle otel).record "component"
      = some (JX.str "http") := by
    rw [hrec]
    apply cleanLogData_get_valid
    · rw [objSpread_otel_get store store otel "component" (by decide) (by decide)]
      exact hcomp
    · decide
  have hd0 : objGet (cleanLogData (getAutoContext store oracle otel).record) "component"
      = some (JX.str "http") := cleanLogData_get_valid _ _ _ hrc (by decide)
  have hsi0 : shouldIncludeServiceMethod (cleanLogData (getAutoContext store oracle otel).record)
      = false := by
    unfold shouldIncludeServiceMethod
    rw [hd0]
    rfl
  simp only [infoLogData, hsi0, Bool.not_false, reduceIte]
  have hdc : objGet (objDelete (objDelete (cleanLogData (getAutoContext store oracle otel).record)
      "service") "method") "component" = some (JX.str "http") := by
    rw [objGet_objDelete_ne _ "method" "component" (by decide),
      objGet_objDelete_ne _ "service" "component" (by decide)]
    exact hd0
  have hds : objGet (objDelete (objDelete (cleanLogData (getAutoContext store oracle otel).record)
      "service") "method") "service" = none := by
    rw [objGet_objDelete_ne _ "method" "service" (by decide)]
    exact objGet_objDelete_self _ "service"
  have hdm : objGet (objDelete (objDelete (cleanLogData (getAutoContext store oracle otel).record)
      "service") "method") "method" = none :=
    objGet_objDelete_self _ "method"
  have hfold := infoFold_http meta _ hdc hds hdm hmeta
  exact ⟨cleanLogData_get_none _ _ hfold.2.1, cleanLogData_get_none _ _ hfold.2.2⟩

/-- C2 counterexample: with the context component equal to http, a warn call
whose metadata carries service and method keys hands the logging engine a
record containing both fields, refuting the claim for the warn operation. -/
theorem warn_http_service_counterexample :
    objGet ([("component", JX.str "http"), ("requestId", JX.str "r1")] : JObj) "component"
      = some (JX.str "http") ∧
    objGet (warnLogData
        (getAutoContext [("component", JX.str "http"), ("requestId", JX.str "r1")] [] none).record
        (some [("service", JX.str "PaymentService"), ("method", JX.str "charge")]))
      "service" = some (JX.str "PaymentService") ∧
    objGet (warnLogData
        (getAutoContext [("component", JX.str "http"), ("requestId", JX.str "r1")] [] none).record
        (some [("service", JX.str "PaymentService"), ("method", JX.str "charge")]))
      "method" = some (JX.str "charge") := by
  decide

/-- Witness for the amended C2 theorem at a concrete store and metadata. -/
theorem info_http_no_service_method_witness :
    objGet ([("component", JX.str "http"), ("service", JX.str "AuthService")] : JObj) "component"
      = some (JX.str "http") ∧
    objGet (infoLogData
        (getAutoContext [("component", JX.str "http"), ("service", JX.str "AuthService")] [] none).record
        (some [("service", JX.str "X"), ("userId", JX.str "u1")])) "service" = none ∧
    objGet (infoLogData
        (getAutoContext [("component", JX.str "http"), ("service", JX.str "AuthService")] [] none).record
        (some [("service", JX.str "X"), ("userId", JX.str "u1")])) "method" = none :=
  ⟨by decide,
    (info_http_no_service_method
      [("component", JX.str "http"), ("service", JX.str "AuthService")] [] none
      [("service", JX.str "X"), ("userId", JX.str "u1")]
      (by decide) (by intro v hv; simp at hv)).1,
    (info_http_no_service_method
      [("component", JX.str "http"), ("service", JX.str "AuthService")] [] none
      [("service", JX.str "X"), ("userId", JX.str "u1")]
      (by decide) (by intro v hv; simp at hv)).2⟩

/-- C3 counterexample: when the first resolution comes back empty it is not
cached, so a second log call invokes getCallerContext again, two invocations
in one unit of work, and the two records carry different service values. -/
theorem caller_cache_counterexample :
    (twoAutoContexts [] [⟨none, none⟩, ⟨some "OrderService", some "create"⟩] none).1.callerCalls
      + (twoAutoContexts [] [⟨none, none⟩, ⟨some "OrderService", some "create"⟩] none).2.callerCalls
      = 2 ∧
    objGet (twoAutoContexts [] [⟨none, none⟩, ⟨some "OrderService", some "create"⟩] none).1.record
      "service" = none ∧
    objGet (twoAutoContexts [] [⟨none, none⟩, ⟨some "OrderService", some "create"⟩] none).2.record
      "service" = some (JX.str "OrderService") := by
  decide

/-- Witness for the amended C3 theorem at a concrete store and oracle. -/
theorem caller_cache_service_method_witness :
    callerNonEmpty ⟨some "UserService", some "getUser"⟩ = true ∧
    ((twoAutoContexts [("component", JX.str "rpc")]
        [⟨some "UserService", some "getUser"⟩] none).1.callerCalls
      + (twoAutoContexts [("component", JX.str "rpc")]
        [⟨some "UserService", some "getUser"⟩] none).2.callerCalls = 1 ∧
    objGet (twoAutoContexts [("component", JX.str "rpc")]
        [⟨some "UserService", some "getUser"⟩] none).1.record "service"
      = objGet (twoAutoContexts [("component", JX.str "rpc")]
        [⟨some "UserService", some "getUser"⟩] none).2.record "service" ∧
    objGet (twoAutoContexts [("component", JX.str "rpc")]
        [⟨some "UserService", some "getUser"⟩] none).1.record "method"
      = objGet (twoAutoContexts [("component", JX.str "rpc")]
        [⟨some "UserService", some "getUser"⟩] none).2.record "method") :=
  ⟨by decide,
    caller_cache_service_method [("component", JX.str "rpc")]
      ⟨some "UserService", some "getUser"⟩ [] none
      (by decide) (by decide) (by decide) (by decide) (by decide)⟩

/-- C4: the claim that no record ever carries a field named _cachedCaller
fails on the code: after a first log call caches the caller, the record of
the second log call contains the reserved _cachedCaller entry, because
cleanLogData filters only the key context and the invalid string values. -/
theorem cachedCaller_surfaces_in_record :
    objGet (twoAutoContexts [] [⟨some "UserService", some "getUser"⟩] none).2.record
      "_cachedCaller" = some (JX.callerV (some "UserService") (some "getUser")) := by
  decide

theorem setTransport_fields (e : Caught) (t : Transport) :
    (setTransportIfUnset e t).loggable = e.loggable ∧
    (setTransportIfUnset e t).statusCode = e.statusCode ∧
    (setTransportIfUnset e t).clientSafeError = e.clientSafeError ∧
    (setTransportIfUnset e t).rpcError = e.rpcError := by
  unfold setTransportIfUnset
  cases htr : e.transport <;> simp

/-- C1: a caught domain error with loggable false produces zero calls into
the logging engine, yet the filter still produces the client response for
every transport kind: for http a JSON body of the client-safe payload plus a
timestamp and the request path at the status code of the error with the
internal-server-error default, for rpc and ws a re-raised wrapped error with
the rpc payload; and the response equals the one produced for the same error
with loggable true. -/
theorem loggable_false_zero_logs_same_response (v : Caught) (t : Transport)
    (r : Option JX) (now path : String)
    (hb : isBaseError v = true) (hl : v.loggable = false) :
    (filterCatch v t r now path).1 = 0 ∧
    (filterCatch v t r now path).2
      = (filterCatch { v with loggable := true } t r now path).2 ∧
    (t = Transport.http → (filterCatch v t r now path).2
      = FilterResponse.httpJson (requestIdHeader r)
          (match v.statusCode with
            | some n => if n ≠ 0 then n else 500
            | none => 500)
          (objSpread v.clientSafeError
            [("timestamp", JX.str now), ("path", JX.str path)])) ∧
    (t = Transport.rpc → (filterCatch v t r now path).2
      = FilterResponse.rpcRaise v.rpcError) ∧
    (t = Transport.ws → (filterCatch v t r now path).2
      = FilterResponse.wsRaise v.rpcError) := by
  have hb2 : (v.isErrorInstance && v.hasCode && v.hasLoggable && v.hasSetTransportIfUnset
      && v.codeIsString && v.loggableIsBool) = true := by
    simpa [isBaseError] using hb
  refine ⟨?_, ?_, ?_, ?_, ?_⟩ <;>
    cases t <;> cases htr : v.transport <;>
      simp [filterCatch, isBaseError, hb2, setTransportIfUnset, hl, htr]

/-- C9: a caught value enters the domain branch exactly when it is an Error
instance carrying the code, loggable and setTransportIfUnset members with a
string code and boolean loggable; every other caught value takes the generic
branch and is always logged once, with no loggable suppression. -/
theorem isBaseError_branching (v : Caught) (t : Transport) (r : Option JX)
    (now path : String) :
    (isBaseError v = true ↔
      (v.isErrorInstance = true ∧ v.hasCode = true ∧ v.hasLoggable = true ∧
       v.hasSetTransportIfUnset = true ∧ v.codeIsString = true ∧
       v.loggableIsBool = true)) ∧
    (isBaseError v = false → (filterCatch v t r now path).1 = 1) := by
  constructor
  · simp [isBaseError, Bool.and_eq_true, and_assoc]
  · intro h
    cases t <;> simp [filterCatch, h]

/-- Witness for the C1 theorem at a concrete domain error and http transport. -/
theorem loggable_false_zero_logs_same_response_witness :
    isBaseError ⟨true, true, true, true, true, true, "USER_NOT_FOUND", "BaseError",
      "User not found", false, none, some 404,
      [("code", JX.str "USER_NOT_FOUND"), ("message", JX.str "User not found")],
      [("code", JX.str "USER_NOT_FOUND")]⟩ = true ∧
    (filterCatch ⟨true, true, true, true, true, true, "USER_NOT_FOUND", "BaseError",
      "User not found", false, none, some 404,
      [("code", JX.str "USER_NOT_FOUND"), ("message", JX.str "User not found")],
      [("code", JX.str "USER_NOT_FOUND")]⟩ Transport.http none "2026-01-01" "/users/1").1
      = 0 ∧
    (filterCatch ⟨true, true, true, true, true, true, "USER_NOT_FOUND", "BaseError",
      "User not found", false, none, some 404,
      [("code", JX.str "USER_NOT_FOUND"), ("message", JX.str "User not found")],
      [("code", JX.str "USER_NOT_FOUND")]⟩ Transport.http none "2026-01-01" "/users/1").2
      = (filterCatch ⟨true, true, true, true, true, true, "USER_NOT_FOUND", "BaseError",
        "User not found", true, none, some 404,
        [("code", JX.str "USER_NOT_FOUND"), ("message", JX.str "User not found")],
        [("code", JX.str "USER_NOT_FOUND")]⟩ Transport.http none "2026-01-01" "/users/1").2 :=
  ⟨by decide,
    (loggable_false_zero_logs_same_response _ Transport.http none "2026-01-01" "/users/1"
      (by decide) (by decide)).1,
    (loggable_false_zero_logs_same_response _ Transport.http none "2026-01-01" "/users/1"
      (by decide) (by decide)).2.1⟩

/-- Witness for the C9 theorem at a plain object carrying code and loggable
fields without being an Error instance. -/
theorem isBaseError_branching_witness :
    isBaseError ⟨false, true, true, true, true, true, "USER_NOT_FOUND", "E",
      "plain object with code and loggable", false, none, some 404, [], []⟩ = false ∧
    (filterCatch ⟨false, true, true, true, true, true, "USER_NOT_FOUND", "E",
      "plain object with code and loggable", false, none, some 404, [], []⟩
      Transport.http none "2026-01-01" "/p").1 = 1 :=
  ⟨by decide,
    (isBaseError_branching _ Transport.http none "2026-01-01" "/p").2 (by decide)⟩

theorem listStartsWith_append (m p q : List Char)
    (h : listStartsWith m (p ++ q) = true) : listStartsWith m p = true := by
  induction p generalizing m with
  | nil => cases m <;> simp [listStartsWith]
  | cons a as ih =>
    cases m with
    | nil => simp [listStartsWith] at h
    | cons b bs =>
      simp only [List.cons_append, listStartsWith, Bool.and_eq_true, beq_iff_eq] at h ⊢
      exact ⟨h.1, ih bs h.2⟩

/-- C5 counterexample: the message starting with the bracketed label but not
followed by a blank is left unchanged, where the claim as stated demands the
prefix to be prepended. -/
theorem formatMessage_counterexample :
    listStartsWith ("[A]done".toList) ("[A] ".toList) = false ∧
    formatMessage ("[A]done".toList) (some ("A".toList)) = "[A]done".toList ∧
    formatMessage ("[A]done".toList) (some ("A".toList))
      ≠ ("[A] ".toList ++ "[A]done".toList) := by
  decide

/-- C5 (amended): formatting leaves the message unchanged whenever it starts
with the bracketed label, in particular when it starts with the bracketed
label followed by a blank; otherwise the bracketed label and a blank are
prepended; and under a different label whose bracketed form is not already a
prefix, that label is prepended. -/
theorem formatMessage_prefix_behavior (m L L2 : List Char) (hL : L ≠ []) (hL2 : L2 ≠ []) :
    (listStartsWith m (('[' :: (L ++ [']'])) ++ [' ']) = true →
      formatMessage m (some L) = m) ∧
    (listStartsWith m ('[' :: (L ++ [']'])) = false →
      formatMessage m (some L) = ('[' :: (L ++ [']'])) ++ (' ' :: m)) ∧
    (listStartsWith (formatMessage m (some L)) ('[' :: (L2 ++ [']'])) = false →
      formatMessage (formatMessage m (some L)) (some L2)
        = ('[' :: (L2 ++ [']'])) ++ (' ' :: formatMessage m (some L))) := by
  refine ⟨?_, ?_, ?_⟩
  · intro h
    have h2 := listStartsWith_append m ('[' :: (L ++ [']'])) [' '] h
    simp [formatMessage, hL, h2]
  · intro h
    simp [formatMessage, hL, h]
  · intro h
    generalize formatMessage m (some L) = fm at h ⊢
    simp [formatMessage, hL2, h]

/-- Witness for the amended C5 theorem at concrete message and labels. -/
theorem formatMessage_prefix_behavior_witness :
    ("App".toList ≠ ([] : List Char)) ∧
    listStartsWith ("boom".toList) ('[' :: ("App".toList ++ [']'])) = false ∧
    formatMessage ("boom".toList) (some ("App".toList))
      = ('[' :: ("App".toList ++ [']'])) ++ (' ' :: "boom".toList) :=
  ⟨by decide, by decide,
    (formatMessage_prefix_behavior ("boom".toList) ("App".toList) ("Job".toList)
      (by decide) (by decide)).2.1 (by decide)⟩

theorem engineRedact_remove_get (record : JObj) (paths : List String) (k : String)
    (hk : paths.contains k = true) :
    objGet (engineRedact ⟨paths, true⟩ record) k = none := by
  have hkm : k ∈ paths := by simpa using hk
  induction record with
  | nil => simp [engineRedact, objGet]
  | cons p t ih =>
    by_cases hp : p.1 ∈ paths
    · simpa [engineRedact, List.filter_cons, hp] using ih
    · have hpk : ¬(p.1 = k) := fun hh => hp (hh ▸ hkm)
      simpa [engineRedact, List.filter_cons, hp, objGet, hpk] using ih

theorem sanitizeObject_get (obj : JObj) (keys : List String) (k : String)
    (hm : matchesSensitive k keys = true) (hs : (objGet obj k).isSome = true) :
    objGet (sanitizeObject obj keys) k = some (JX.str "[REDACTED]") := by
  induction obj with
  | nil => simp [objGet] at hs
  | cons p t ih =>
    by_cases hp : p.1 = k
    · simp [sanitizeObject, objGet, hp, hm]
    · have ht := ih (by simpa [objGet, hp] using hs)
      by_cases hc : matchesSensitive p.1 keys = true
      · simpa [sanitizeObject, objGet, hc, hp] using ht
      · simpa [sanitizeObject, objGet, hc, hp] using ht

/-- C6 (amended): the engine, configured by createLogger with remove true,
drops a field whose name is a configured redact path from the emitted record,
while the sanitizeObject utility replaces a field whose name matches a
sensitive word in place with the fixed REDACTED marker, keeping the field
present. -/
theorem redaction_behavior (record obj : JObj) (k1 k2 : String)
    (h1 : ((createLoggerRedact none).paths).contains k1 = true)
    (h2 : matchesSensitive k2 SENSITIVE_KEYS = true)
    (h3 : (objGet obj k2).isSome = true) :
    objGet (engineRedact (createLoggerRedact none) record) k1 = none ∧
    objGet (sanitizeObject obj SENSITIVE_KEYS) k2 = some (JX.str "[REDACTED]") := by
  constructor
  · have hr : createLoggerRedact none = ⟨DEFAULT_REDACT_PATHS, true⟩ := rfl
    rw [hr]
    rw [hr] at h1
    exact engineRedact_remove_get record DEFAULT_REDACT_PATHS k1 h1
  · exact sanitizeObject_get obj SENSITIVE_KEYS k2 h2 h3

/-- C6 counterexample: with the default configuration the engine removes the
password field from the record instead of keeping it with a marker value. -/
theorem redaction_counterexample :
    engineRedact (createLoggerRedact none)
      [("password", JX.str "hunter2"), ("userId", JX.str "u1")]
      = [("userId", JX.str "u1")] ∧
    objGet (engineRedact (createLoggerRedact none)
      [("password", JX.str "hunter2"), ("userId", JX.str "u1")]) "password" = none := by
  decide

/-- Witness for the amended C6 theorem at concrete records. -/
theorem redaction_behavior_witness :
    ((createLoggerRedact none).paths).contains "password" = true ∧
    matchesSensitive "userToken" SENSITIVE_KEYS = true ∧
    objGet (engineRedact (createLoggerRedact none)
      [("password", JX.str "x"), ("msg", JX.str "ok")]) "password" = none ∧
    objGet (sanitizeObject [("userToken", JX.str "abc")] SENSITIVE_KEYS) "userToken"
      = some (JX.str "[REDACTED]") :=
  ⟨by decide, by decide,
    (redaction_behavior [("password", JX.str "x"), ("msg", JX.str "ok")]
      [("userToken", JX.str "abc")] "password" "userToken"
      (by decide) (by decide) (by decide)).1,
    (redaction_behavior [("password", JX.str "x"), ("msg", JX.str "ok")]
      [("userToken", JX.str "abc")] "password" "userToken"
      (by decide) (by decide) (by decide)).2⟩

/-- C7: for error and fatal on an Error message, the emitted record carries a
stack field equal to the stack split into ordered trimmed non-empty lines and
a cause field equal to the formatted cause, which reduces an Error cause to
its name, message and optional formatted stack and passes any other cause
through unchanged. -/
theorem error_fatal_stack_cause (ctx logData : JObj) (name : String) (s : String)
    (st : Option String) (c : CauseV) (co : Option CauseV) (hs : s ≠ "") :
    objGet (errorLogMeta ctx name (some s) co) "stack"
      = some (JX.strArr (formatStackTrace s)) ∧
    objGet (errorLogMeta ctx name st (some c)) "cause" = some (formatCause c) ∧
    objGet (fatalLogMeta logData name (some s) co) "stack"
      = some (JX.strArr (formatStackTrace s)) ∧
    objGet (fatalLogMeta logData name st (some c)) "cause" = some (formatCause c) ∧
    (∀ (n2 m2 s2 : String), s2 ≠ "" →
      formatCause (CauseV.errC n2 m2 (some s2))
        = JX.redCause n2 m2 (some (formatStackTrace s2))) ∧
    (∀ x : JX, formatCause (CauseV.rawC x) = x) := by
  refine ⟨?_, ?_, ?_, ?_, ?_, ?_⟩
  · cases co with
    | none => simp [errorLogMeta, hs, objGet_objSet_self]
    | some c2 =>
      simp only [errorLogMeta]
      rw [objGet_objSet_ne _ "cause" "stack" _ (by decide), if_pos hs]
      exact objGet_objSet_self _ "stack" _
  · cases st with
    | none => simp [errorLogMeta, objGet_objSet_self]
    | some s2 =>
      by_cases h2 : s2 = ""
      · simp [errorLogMeta, h2, objGet_objSet_self]
      · simp [errorLogMeta, h2, objGet_objSet_self]
  · cases co with
    | none => simp [fatalLogMeta, hs, objGet_objSet_self]
    | some c2 =>
      simp only [fatalLogMeta]
      rw [objGet_objSet_ne _ "cause" "stack" _ (by decide), if_pos hs]
      exact objGet_objSet_self _ "stack" _
  · cases st with
    | none => simp [fatalLogMeta, objGet_objSet_self]
    | some s2 =>
      by_cases h2 : s2 = ""
      · simp [fatalLogMeta, h2, objGet_objSet_self]
      · simp [fatalLogMeta, h2, objGet_objSet_self]
  · intro n2 m2 s2 h2
    simp [formatCause, h2]
  · intro x
    rfl

/-- Witness for the C7 theorem at a concrete three-line stack and raw cause. -/
theorem error_fatal_stack_cause_witness :
    ("Error: boom\n    at handler\n    at run\n" ≠ "") ∧
    objGet (errorLogMeta [("requestId", JX.str "r1")] "Error"
        (some "Error: boom\n    at handler\n    at run\n")
        (some (CauseV.rawC (JX.str "io failure")))) "stack"
      = some (JX.strArr (formatStackTrace "Error: boom\n    at handler\n    at run\n")) ∧
    objGet (fatalLogMeta [("requestId", JX.str "r1")] "Error"
        (some "Error: boom\n    at handler\n    at run\n")
        (some (CauseV.rawC (JX.str "io failure")))) "cause"
      = some (formatCause (CauseV.rawC (JX.str "io failure"))) ∧
    formatStackTrace "Error: boom\n    at handler\n    at run\n"
      = ["Error: boom", "at handler", "at run"] :=
  ⟨by decide,
    (error_fatal_stack_cause [("requestId", JX.str "r1")] [("requestId", JX.str "r1")]
      "Error" "Error: boom\n    at handler\n    at run\n"
      (some "Error: boom\n    at handler\n    at run\n")
      (CauseV.rawC (JX.str "io failure")) (some (CauseV.rawC (JX.str "io failure")))
      (by decide)).1,
    (error_fatal_stack_cause [("requestId", JX.str "r1")] [("requestId", JX.str "r1")]
      "Error" "Error: boom\n    at handler\n    at run\n"
      (some "Error: boom\n    at handler\n    at run\n")
      (CauseV.rawC (JX.str "io failure")) (some (CauseV.rawC (JX.str "io failure")))
      (by decide)).2.2.2.1,
    by decide⟩

/-- C8: when the traceparent lookup yields a truthy single string with at
least four hyphen-delimited parts, extraction returns part one as traceId,
part two as parentSpanId and part three as traceFlags; when the traceparent
headers are absent it falls back to the discrete x-trace-id, x-span-id and
x-parent-span-id headers, with tracestate feeding traceFlags. -/
theorem extractTraceContext_spec (headers : List (String × HV)) (tp : String) :
    (hOr (hGet headers "traceparent") (hGet headers "x-traceparent") = some (HV.s tp) →
      ((splitOnChar (Char.ofNat 45) tp.toList).map String.mk).length ≥ 4 →
      extractTraceContext headers =
        { traceId := ((splitOnChar (Char.ofNat 45) tp.toList).map String.mk)[1]?,
          spanId := none,
          parentSpanId := ((splitOnChar (Char.ofNat 45) tp.toList).map String.mk)[2]?,
          traceFlags := ((splitOnChar (Char.ofNat 45) tp.toList).map String.mk)[3]? }) ∧
    (∀ (t sp ps : String),
      hGet headers "traceparent" = none → hGet headers "x-traceparent" = none →
      hGet headers "x-trace-id" = some (HV.s t) → t ≠ "" →
      hGet headers "x-span-id" = some (HV.s sp) → sp ≠ "" →
      hGet headers "x-parent-span-id" = some (HV.s ps) → ps ≠ "" →
      hGet headers "tracestate" = none → hGet headers "x-tracestate" = none →
      extractTraceContext headers =
        { traceId := some t, spanId := some sp, parentSpanId := some ps,
          traceFlags := none }) := by
  constructor
  · intro h1 h2
    have htp : ¬(tp = "") := by
      intro hh
      subst hh
      exact absurd h2 (by decide)
    have h2b : (splitOnChar (Char.ofNat 45) tp.data).length ≥ 4 := by
      simpa [String.toList] using h2
    simp [extractTraceContext, h1, htp, h2, h2b]
  · intro t sp ps h1 h2 h3 ht h4 hsp h5 hps h6 h7
    simp [extractTraceContext, hOr, hvTruthy, hvFirst, h1, h2, h3, ht, h4, hsp, h5, hps,
      h6, h7]

/-- Witness for the C8 theorem at a concrete header map. -/
theorem extractTraceContext_spec_witness :
    hOr (hGet [("traceparent", HV.s "00-abc-def-01")] "traceparent")
      (hGet [("traceparent", HV.s "00-abc-def-01")] "x-traceparent")
      = some (HV.s "00-abc-def-01") ∧
    extractTraceContext [("traceparent", HV.s "00-abc-def-01")]
      = { traceId := some "abc", spanId := none, parentSpanId := some "def",
          traceFlags := some "01" } :=
  ⟨by decide, by
    have h := (extractTraceContext_spec [("traceparent", HV.s "00-abc-def-01")]
      "00-abc-def-01").1 (by decide) (by decide)
    exact h.trans (by decide)⟩

theorem hasUndef_cons (p : String × Option JX) (t : ClsStore) :
    hasUndef (p :: t) = (p.2.isNone || hasUndef t) := by
  simp [hasUndef]

theorem clsSet_no_undef (s : ClsStore) (k : String) (x : JX)
    (h : hasUndef s = false) : hasUndef (clsSet s k (some x)) = false := by
  induction s with
  | nil => simp [clsSet, hasUndef]
  | cons p t ih =>
    rw [hasUndef_cons] at h
    simp only [Bool.or_eq_false_iff] at h
    by_cases hp : p.1 = k
    · simp [clsSet, hp, hasUndef_cons, h.2]
    · simp [clsSet, hp, hasUndef_cons, h.1, ih h.2]

theorem run_no_undef (ctx : List (String × Option JX)) :
    ∀ s : ClsStore, hasUndef s = false →
      hasUndef (LoggerContextService.run s ctx) = false := by
  induction ctx with
  | nil =>
    intro s h
    simpa [LoggerContextService.run] using h
  | cons p t ih =>
    intro s h
    cases hp : p.2 with
    | none =>
      have hstep : LoggerContextService.run s (p :: t) = LoggerContextService.run s t := by
        simp [LoggerContextService.run, hp]
      rw [hstep]
      exact ih s h
    | some x =>
      have hstep : LoggerContextService.run s (p :: t)
          = LoggerContextService.run (clsSet s p.1 (some x)) t := by
        simp [LoggerContextService.run, hp]
      rw [hstep]
      exact ih _ (clsSet_no_undef s p.1 x h)

theorem run_skips_undefined (ctx : List (String × Option JX)) :
    ∀ s : ClsStore, LoggerContextService.run s ctx
      = LoggerContextService.run s (ctx.filter (fun p => p.2.isSome)) := by
  induction ctx with
  | nil => intro s; rfl
  | cons p t ih =>
    intro s
    cases hp : p.2 with
    | none =>
      have h1 : LoggerContextService.run s (p :: t) = LoggerContextService.run s t := by
        simp [LoggerContextService.run, hp]
      have h2 : (p :: t).filter (fun q => q.2.isSome) = t.filter (fun q => q.2.isSome) := by
        simp [List.filter_cons, hp]
      rw [h1, h2]
      exact ih s
    | some x =>
      have h1 : LoggerContextService.run s (p :: t)
          = LoggerContextService.run (clsSet s p.1 (some x)) t := by
        simp [LoggerContextService.run, hp]
      have h2 : (p :: t).filter (fun q => q.2.isSome)
          = p :: t.filter (fun q => q.2.isSome) := by
        simp [List.filter_cons, hp]
      have h3 : LoggerContextService.run s (p :: t.filter (fun q => q.2.isSome))
          = LoggerContextService.run (clsSet s p.1 (some x))
            (t.filter (fun q => q.2.isSome)) := by
        simp [LoggerContextService.run, hp]
      rw [h1, h2, h3]
      exact ih _

/-- C10: setting an undefined value leaves the context store unchanged, the
run seeding skips every undefined-valued entry of the supplied context, and
no operation of the context accessor ever stores undefined under a key. -/
theorem context_undefined_handling (s : ClsStore) (k : String) (v : Option JX)
    (ctx : List (String × Option JX)) :
    LoggerContextService.set s k none = s ∧
    (hasUndef s = false → hasUndef (LoggerContextService.set s k v) = false) ∧
    (hasUndef s = false → hasUndef (LoggerContextService.run s ctx) = false) ∧
    LoggerContextService.run s ctx
      = LoggerContextService.run s (ctx.filter (fun p => p.2.isSome)) := by
  refine ⟨rfl, ?_, ?_, ?_⟩
  · intro h
    cases v with
    | none => simpa [LoggerContextService.set] using h
    | some x => simpa [LoggerContextService.set] using clsSet_no_undef s k x h
  · intro h
    exact run_no_undef ctx s h
  · exact run_skips_undefined ctx s

/-- Witness for the C10 theorem at a concrete store and context. -/
theorem context_undefined_handling_witness :
    hasUndef [("a", some (JX.str "1"))] = false ∧
    LoggerContextService.set [("a", some (JX.str "1"))] "a" none
      = [("a", some (JX.str "1"))] ∧
    hasUndef (LoggerContextService.run [("a", some (JX.str "1"))]
      [("x", none), ("y", some (JX.str "2"))]) = false :=
  ⟨by decide,
    (context_undefined_handling [("a", some (JX.str "1"))] "a" (some (JX.str "9"))
      [("x", none), ("y", some (JX.str "2"))]).1,
    (context_undefined_handling [("a", some (JX.str "1"))] "a" (some (JX.str "9"))
      [("x", none), ("y", some (JX.str "2"))]).2.2.1 (by decide)⟩
